import Mathlib

/-
  Shallow embedding of the AsyncTCPSock library (src/src/AsyncTCP.cpp,
  src/src/AsyncTCP.h): the per-client connection state machine, the write
  queue with partial-write accounting, the enqueue (add/send) API, the
  service-loop hooks (_sockIsWriteable, _sockIsReadable, _sockPoll,
  _sockDelayedConnect) and the teardown paths (_close, _error).

  Modelling conventions:
  - Syscall outcomes (lwip_write, lwip_read, getsockopt SO_ERROR, socket,
    lwip_connect, select) are passed in as explicit oracle arguments; the
    monotonic millisecond clock is passed as a `now` argument.
  - User callbacks are modelled by per-slot "registered" booleans plus a
    list of emitted callback events (CbEvent); a ::free() of a queued
    buffer's data is recorded as a CbEvent.freeBuf event.
  - uint32_t timestamp subtraction is modelled by sub32 (wrapping
    subtraction mod 2^32); counters that cannot wrap in any reachable
    state (written, write-space) are plain naturals.
  - Reading the front() of an empty std::deque is undefined behaviour in
    the source; the corresponding functions return `none` in that case.
-/

set_option maxHeartbeats 1000000
set_option linter.unusedVariables false

namespace AsyncTCPSock

/-- TCP_SND_BUF, the lwIP send-buffer constant (initial write window). -/
def TCP_SND_BUF : Nat := 5840

/-- ASYNC_MAX_ACK_TIME from AsyncTCP.h (default ack timeout, ms). -/
def ASYNC_MAX_ACK_TIME : Nat := 5000

/-- ASYNC_WRITE_FLAG_COPY from AsyncTCP.h (bit 0). -/
def ASYNC_WRITE_FLAG_COPY : Nat := 1

/-- EAGAIN errno value (lwIP). -/
def EAGAIN : Int := 11

/-- EWOULDBLOCK errno value (lwIP, same as EAGAIN). -/
def EWOULDBLOCK : Int := 11

/-- EINPROGRESS errno value (checked by the source to be 119). -/
def EINPROGRESS : Int := 119

/-- Wrapping uint32_t subtraction: (a - b) as computed on uint32_t values. -/
def sub32 (a b : Nat) : Nat := (a % 4294967296 + 4294967296 - b % 4294967296) % 4294967296

/-- One entry of the write queue: struct queued_writebuf from AsyncTCP.h.
`data` holds the bytes the stored pointer points at. -/
structure queued_writebuf where
  data : List Nat
  length : Nat
  written : Nat
  queued_at : Nat
  written_at : Nat
  write_errno : Int
  owned : Bool
deriving DecidableEq

/-- Observable side effects of a hook or API call: user callbacks fired, in
order, plus ::free() calls on queued buffer data. -/
inductive CbEvent where
  | onConnect : CbEvent
  | onDisconnect : CbEvent
  | onAck (length : Nat) (delay : Nat) : CbEvent
  | onError (err : Int) : CbEvent
  | onData (len : Nat) : CbEvent
  | onTimeout (delay : Nat) : CbEvent
  | onPoll : CbEvent
  | freeBuf (data : List Nat) : CbEvent
deriving DecidableEq

/-- The AsyncClient object: fields of AsyncSocketBase and AsyncClient that
the claims concern.  Callback slots are modelled by whether they are set. -/
structure AsyncClient where
  _socket : Int
  _conn_state : Nat
  _rx_last_packet : Nat
  _rx_since_timeout : Nat
  _ack_timeout : Nat
  _connect_addr : Nat
  _connect_port : Nat
  _writeQueue : List queued_writebuf
  _ack_timeout_signaled : Bool
  _writeSpaceRemaining : Nat
  has_connect_cb : Bool
  has_discard_cb : Bool
  has_sent_cb : Bool
  has_error_cb : Bool
  has_recv_cb : Bool
  has_timeout_cb : Bool
  has_poll_cb : Bool
deriving DecidableEq

/-- AsyncClient::AsyncClient(int sockfd): all callback slots null,
rx_last_packet 0, rx timeout 0, ack timeout ASYNC_MAX_ACK_TIME, write space
TCP_SND_BUF, conn_state 0 and socket -1; when sockfd != -1 the descriptor
is adopted and the state set to 4 (ESTABLISHED). -/
def mkAsyncClient (sockfd : Int) : AsyncClient :=
  { _socket := if sockfd ≠ -1 then sockfd else -1
    _conn_state := if sockfd ≠ -1 then 4 else 0
    _rx_last_packet := 0
    _rx_since_timeout := 0
    _ack_timeout := ASYNC_MAX_ACK_TIME
    _connect_addr := 0
    _connect_port := 0
    _writeQueue := []
    _ack_timeout_signaled := false
    _writeSpaceRemaining := TCP_SND_BUF
    has_connect_cb := false
    has_discard_cb := false
    has_sent_cb := false
    has_error_cb := false
    has_recv_cb := false
    has_timeout_cb := false
    has_poll_cb := false }

/-- AsyncClient::connected(): socket open and conn_state == 4. -/
def connected (c : AsyncClient) : Bool :=
  if c._socket = -1 then false else c._conn_state == 4

/-- AsyncClient::space(): write space remaining if connected, else 0. -/
def space (c : AsyncClient) : Nat :=
  if connected c then c._writeSpaceRemaining else 0

/-- AsyncClient::_removeAllCallbacks(): clear every callback slot. -/
def _removeAllCallbacks (c : AsyncClient) : AsyncClient :=
  { c with has_connect_cb := false, has_discard_cb := false,
           has_sent_cb := false, has_error_cb := false,
           has_recv_cb := false, has_timeout_cb := false,
           has_poll_cb := false }

/-- AsyncClient::_clearWriteQueue(): pop every queued buffer, freeing the
data of owned ones; returns the free events in queue order. -/
def _clearWriteQueue (c : AsyncClient) : AsyncClient × List CbEvent :=
  ({ c with _writeQueue := [] },
   c._writeQueue.filterMap
     (fun b => if b.owned then some (CbEvent.freeBuf b.data) else none))

/-- AsyncClient::_close(): conn_state := 0, close and clear the descriptor,
drop the write queue (freeing owned data), fire on_disconnect if set,
clear all callbacks. -/
def _close (c : AsyncClient) : AsyncClient × List CbEvent :=
  let c1 := { c with _conn_state := 0, _socket := -1 }
  let p := _clearWriteQueue c1
  (_removeAllCallbacks p.1,
   p.2 ++ (if c.has_discard_cb then [CbEvent.onDisconnect] else []))

/-- AsyncClient::_error(err): like _close but fires on_error(err) before
on_disconnect. -/
def _error (c : AsyncClient) (err : Int) : AsyncClient × List CbEvent :=
  let c1 := { c with _conn_state := 0, _socket := -1 }
  let p := _clearWriteQueue c1
  (_removeAllCallbacks p.1,
   p.2 ++ (if c.has_error_cb then [CbEvent.onError err] else [])
       ++ (if c.has_discard_cb then [CbEvent.onDisconnect] else []))

/-- AsyncClient::add(data, size, apiflags): reject when not connected, data
null or size == 0; reject when no space; accept will_send = min bytes;
with the COPY flag, malloc (modelled by the allocOk oracle, reject on
failure) and copy; append the new entry, decrement the write space, clear
the ack-timeout latch and return will_send. -/
def add (c : AsyncClient) (data : Option (List Nat)) (size : Nat)
    (apiflags : Nat) (now : Nat) (allocOk : Bool) : AsyncClient × Nat :=
  if ¬connected c ∨ data = none ∨ size = 0 then (c, 0)
  else
    let room := space c
    if room = 0 then (c, 0)
    else
      let will_send := if room < size then room else size
      let bs := data.getD []
      if apiflags &&& ASYNC_WRITE_FLAG_COPY ≠ 0 then
        if allocOk = false then (c, 0)
        else
          let n_entry : queued_writebuf :=
            { data := bs.take will_send, length := will_send, written := 0,
              queued_at := now, written_at := 0, write_errno := 0, owned := true }
          ({ c with _writeQueue := c._writeQueue ++ [n_entry],
                    _writeSpaceRemaining := c._writeSpaceRemaining - will_send,
                    _ack_timeout_signaled := false }, will_send)
      else
        let n_entry : queued_writebuf :=
          { data := bs, length := will_send, written := 0,
            queued_at := now, written_at := 0, write_errno := 0, owned := false }
        ({ c with _writeQueue := c._writeQueue ++ [n_entry],
                  _writeSpaceRemaining := c._writeSpaceRemaining - will_send,
                  _ack_timeout_signaled := false }, will_send)

/-- Outcome of one non-blocking lwip_write: r >= 0 bytes written, or -1
with an errno. -/
inductive WriteRes where
  | ok (r : Nat) : WriteRes
  | err (e : Int) : WriteRes
deriving DecidableEq

/-- Body of AsyncClient::_flushWriteQueue acting on the head buffer: if no
error is latched and the buffer is not fully written, make exactly one
write attempt; on success advance written and the write space (stamping
written_at when complete), on EAGAIN/EWOULDBLOCK do nothing, on any other
error latch it into write_errno.  Returns (head buffer, write space,
activity). -/
def flushCore (qwb : queued_writebuf) (wsr : Nat) (wr : WriteRes) (now : Nat) :
    queued_writebuf × Nat × Bool :=
  if qwb.write_errno = 0 ∧ qwb.written < qwb.length then
    match wr with
    | WriteRes.ok r =>
        ({ qwb with written := qwb.written + r,
                    written_at := if qwb.length ≤ qwb.written + r then now
                                  else qwb.written_at },
         wsr + r, true)
    | WriteRes.err e =>
        if e = EAGAIN ∨ e = EWOULDBLOCK then (qwb, wsr, false)
        else ({ qwb with write_errno := e }, wsr, false)
  else (qwb, wsr, false)

/-- AsyncClient::_flushWriteQueue(): no-op on a closed socket; otherwise
accesses _writeQueue.front() unconditionally (undefined behaviour, `none`,
when the queue is empty) and runs one flush attempt on it. -/
def _flushWriteQueue (c : AsyncClient) (wr : WriteRes) (now : Nat) :
    Option (AsyncClient × Bool) :=
  if c._socket = -1 then some (c, false)
  else
    match c._writeQueue with
    | [] => none
    | qwb :: rest =>
        let p := flushCore qwb c._writeSpaceRemaining wr now
        some ({ c with _writeQueue := p.1 :: rest,
                       _writeSpaceRemaining := p.2.1 }, p.2.2)

/-- Outcome of getsockopt(SO_ERROR): the call itself failing with errno, or
succeeding with the socket error value. -/
inductive SoErrRes where
  | fail (errno : Int) : SoErrRes
  | ok (sockerr : Int) : SoErrRes
deriving DecidableEq

/-- AsyncClient::_sockIsWriteable(): in CONNECTING/SYN_RECEIVED inspect
SO_ERROR and either run the error teardown or become ESTABLISHED and fire
on_connect; otherwise, if the queue is non-empty, flush the head once and
then either run the error teardown (latched write_errno), or retire the
head if fully written (advance rx_last_packet to written_at if later, free
the data iff owned, pop, fire on_ack(length, written_at - queued_at)).
Returns (client, activity, events). -/
def _sockIsWriteable (c : AsyncClient) (so : SoErrRes) (wr : WriteRes)
    (now : Nat) : AsyncClient × Bool × List CbEvent :=
  if c._conn_state = 2 ∨ c._conn_state = 3 then
    match so with
    | SoErrRes.fail e =>
        let p := _error c e
        (p.1, false, p.2)
    | SoErrRes.ok sockerr =>
        if sockerr ≠ 0 then
          let p := _error c sockerr
          (p.1, false, p.2)
        else
          ({ c with _conn_state := 4, _rx_last_packet := now,
                    _ack_timeout_signaled := false },
           true,
           if c.has_connect_cb then [CbEvent.onConnect] else [])
  else
    match c._writeQueue with
    | [] => (c, false, [])
    | qwb :: rest =>
        let p := flushCore qwb c._writeSpaceRemaining wr now
        let h := p.1
        if h.write_errno ≠ 0 then
          let c1 := { c with _writeQueue := h :: rest,
                             _writeSpaceRemaining := p.2.1 }
          let q := _error c1 h.write_errno
          (q.1, p.2.2, q.2)
        else if h.length ≤ h.written then
          let rx := if c._rx_last_packet < h.written_at then h.written_at
                    else c._rx_last_packet
          let c1 := { c with _writeQueue := rest,
                             _writeSpaceRemaining := p.2.1,
                             _rx_last_packet := rx }
          (c1, p.2.2,
           (if h.owned then [CbEvent.freeBuf h.data] else []) ++
           (if h.length ≠ 0 ∧ c.has_sent_cb then
              [CbEvent.onAck h.length (sub32 h.written_at h.queued_at)]
            else []))
        else
          ({ c with _writeQueue := h :: rest,
                    _writeSpaceRemaining := p.2.1 }, p.2.2, [])

/-- Outcome of one non-blocking lwip_read: n > 0 bytes, 0 (peer closed), or
-1 with an errno. -/
inductive ReadRes where
  | got (n : Nat) : ReadRes
  | eof : ReadRes
  | fail (e : Int) : ReadRes
deriving DecidableEq

/-- AsyncClient::_sockIsReadable(): stamp rx_last_packet, read once; on
data fire on_data, on a zero-byte read run the close teardown, on EAGAIN
do nothing, on any other error run the error teardown. -/
def _sockIsReadable (c : AsyncClient) (rr : ReadRes) (now : Nat) :
    AsyncClient × List CbEvent :=
  let c1 := { c with _rx_last_packet := now }
  match rr with
  | ReadRes.got n => (c1, if c1.has_recv_cb then [CbEvent.onData n] else [])
  | ReadRes.eof => _close c1
  | ReadRes.fail e =>
      if e = EAGAIN ∨ e = EWOULDBLOCK then (c1, [])
      else _error c1 e

/-- AsyncClient::_sockPoll(): no-op on a closed socket.  Reads
_writeQueue.front().queued_at BEFORE checking the queue size — undefined
behaviour (`none`) when the queue is empty.  Otherwise: fire the ack
timeout (once, via the _ack_timeout_signaled latch) when the head is
stale; else close on rx timeout; else fire on_poll. -/
def _sockPoll (c : AsyncClient) (now : Nat) : Option (AsyncClient × List CbEvent) :=
  if c._socket = -1 then some (c, [])
  else
    match c._writeQueue with
    | [] => none
    | qwb :: _ =>
        let sent_delay := sub32 now qwb.queued_at
        if c._ack_timeout_signaled = false ∧ c._ack_timeout ≠ 0 ∧
            c._ack_timeout ≤ sent_delay then
          some ({ c with _ack_timeout_signaled := true },
                if c.has_timeout_cb then [CbEvent.onTimeout sent_delay] else [])
        else if c._rx_since_timeout ≠ 0 ∧
            c._rx_since_timeout * 1000 % 4294967296 ≤ sub32 now c._rx_last_packet then
          some (_close c)
        else
          some (c, if c.has_poll_cb then [CbEvent.onPoll] else [])

/-- AsyncClient::send(): zero-timeout select for writability (outcome given
by the `writable` oracle); if writable, flush the head once — reaching
_writeQueue.front() (undefined behaviour, `none`, on an empty queue).
Always returns true. -/
def send (c : AsyncClient) (writable : Bool) (wr : WriteRes) (now : Nat) :
    Option (AsyncClient × Bool) :=
  if writable then
    match _flushWriteQueue c wr now with
    | none => none
    | some p => some (p.1, true)
  else some (c, true)

/-- AsyncClient::connect(IPAddress, port): refuse when a socket is already
open; create a non-blocking socket (sockRes oracle; none = failure) and
issue lwip_connect (connRes oracle: none = r >= 0, some e = failure with
errno e); on hard failure close the fresh descriptor and return false,
else conn_state := 2 and adopt the descriptor. -/
def connectIP (c : AsyncClient) (ip : Nat) (port : Nat) (sockRes : Option Nat)
    (connRes : Option Int) : AsyncClient × Bool :=
  if c._socket ≠ -1 then (c, false)
  else
    match sockRes with
    | none => (c, false)
    | some sockfd =>
        match connRes with
        | some e =>
            if e ≠ EINPROGRESS then (c, false)
            else ({ c with _conn_state := 2, _socket := (sockfd : Int) }, true)
        | none => ({ c with _conn_state := 2, _socket := (sockfd : Int) }, true)

/-- AsyncClient::_sockDelayedConnect(): after DNS completion, if
connect_addr resolved nonzero issue the IPv4 connect(connect_addr,
connect_port) path; else fire on_error(-55) then on_disconnect. -/
def _sockDelayedConnect (c : AsyncClient) (sockRes : Option Nat)
    (connRes : Option Int) : AsyncClient × List CbEvent :=
  if c._connect_addr ≠ 0 then
    ((connectIP c c._connect_addr c._connect_port sockRes connRes).1, [])
  else
    (c, (if c.has_error_cb then [CbEvent.onError (-55)] else []) ++
        (if c.has_discard_cb then [CbEvent.onDisconnect] else []))

/-- AsyncClient::close(bool): run the close teardown iff a socket is open. -/
def close (c : AsyncClient) : AsyncClient × List CbEvent :=
  if c._socket ≠ -1 then _close c else (c, [])

/-- One interaction with a client: the service-loop hooks and the
user-facing mutations, each carrying its syscall/clock oracles. -/
inductive Act where
  | aAdd (data : Option (List Nat)) (size : Nat) (apiflags : Nat) (now : Nat)
      (allocOk : Bool) : Act
  | aWritable (so : SoErrRes) (wr : WriteRes) (now : Nat) : Act
  | aReadable (rr : ReadRes) (now : Nat) : Act
  | aPoll (now : Nat) : Act
  | aSend (writable : Bool) (wr : WriteRes) (now : Nat) : Act
  | aClose : Act
  | aConnect (ip : Nat) (port : Nat) (sockRes : Option Nat)
      (connRes : Option Int) : Act
  | aDelayedConnect (sockRes : Option Nat) (connRes : Option Int) : Act
deriving DecidableEq

/-- Whether an interaction is a call to add() (an enqueue attempt). -/
def Act.isAddAct : Act → Bool
  | Act.aAdd _ _ _ _ _ => true
  | _ => false

/-- Apply one interaction to a client; `none` on undefined behaviour. -/
def step (c : AsyncClient) (a : Act) : Option (AsyncClient × List CbEvent) :=
  match a with
  | Act.aAdd d sz fl now ok => some ((add c d sz fl now ok).1, [])
  | Act.aWritable so wr now =>
      let p := _sockIsWriteable c so wr now
      some (p.1, p.2.2)
  | Act.aReadable rr now => some (_sockIsReadable c rr now)
  | Act.aPoll now => _sockPoll c now
  | Act.aSend w wr now =>
      match send c w wr now with
      | none => none
      | some p => some (p.1, [])
  | Act.aClose => some (close c)
  | Act.aConnect ip port sr cr => some ((connectIP c ip port sr cr).1, [])
  | Act.aDelayedConnect sr cr => some (_sockDelayedConnect c sr cr)

/-- Apply a sequence of interactions (final state only). -/
def run (c : AsyncClient) (acts : List Act) : Option AsyncClient :=
  match acts with
  | [] => some c
  | a :: rest =>
      match step c a with
      | none => none
      | some p => run p.1 rest

/-- Descriptor/state coherence: the descriptor is -1 exactly when the
connection state is CLOSED (0). -/
def coherent (c : AsyncClient) : Prop := c._socket = -1 ↔ c._conn_state = 0

/-- Coherence plus: outside ESTABLISHED the write queue is empty (buffers
are only enqueued while connected and are dropped on teardown). -/
def stateQueueInv (c : AsyncClient) : Prop :=
  coherent c ∧ (c._conn_state ≠ 4 → c._writeQueue = [])

/-- The ack timeout cannot fire: the latch is set or the queue is empty. -/
def quietInv (c : AsyncClient) : Prop :=
  c._ack_timeout_signaled = true ∨ c._writeQueue = []

/-- Sum of the length fields over the queued buffers. -/
def sumLen (q : List queued_writebuf) : Nat := (q.map (fun b => b.length)).sum

/-- Sum of the written fields over the queued buffers. -/
def sumWritten (q : List queued_writebuf) : Nat :=
  (q.map (fun b => b.written)).sum

/-- Claim C3's accounting identity in subtraction-free form:
writeSpaceRemaining equals the initial window minus the sum of lengths
plus the sum of written counts of the enqueued buffers. -/
def spaceAccounting (c : AsyncClient) : Prop :=
  c._writeSpaceRemaining + sumLen c._writeQueue =
    TCP_SND_BUF + sumWritten c._writeQueue

/-- Number of on_ack events in an event list. -/
def countAck (evs : List CbEvent) : Nat :=
  evs.countP (fun e => match e with
    | CbEvent.onAck _ _ => true
    | _ => false)

/-- Transcription of claim C2's stated postcondition for flush-head: head
fully written with written_at stamped now, or the last write attempt
failed with EAGAIN/EWOULDBLOCK, or a non-EAGAIN error latched. -/
def flushPostClaim (h : queued_writebuf) (wr : WriteRes) (now : Nat) : Prop :=
  (h.written = h.length ∧ h.written_at = now) ∨
  (∃ e, wr = WriteRes.err e ∧ (e = EAGAIN ∨ e = EWOULDBLOCK)) ∨
  h.write_errno ≠ 0

/-- A 2-byte owned buffer, nothing written yet, queued at t=0. -/
def halfBuf : queued_writebuf :=
  { data := [10, 20], length := 2, written := 0, queued_at := 0,
    written_at := 0, write_errno := 0, owned := true }

/-- An ESTABLISHED client (descriptor 5) whose queue holds halfBuf. -/
def halfClient : AsyncClient := { mkAsyncClient 5 with _writeQueue := [halfBuf] }

/-- An ESTABLISHED client with a stalled head buffer (queued at t=0, never
written) and an on_timeout callback registered. -/
def stallC : AsyncClient :=
  { mkAsyncClient 5 with
      _writeQueue := [{ data := [1], length := 1, written := 0, queued_at := 0,
                        written_at := 0, write_errno := 0, owned := true }],
      has_timeout_cb := true }

/-- stallC after its ack timeout fired (latch set). -/
def stallCFired : AsyncClient := { stallC with _ack_timeout_signaled := true }

/-- A closed client waiting on DNS whose resolution failed (connect_addr
zero), with error and disconnect callbacks registered. -/
def dnsFailC : AsyncClient :=
  { mkAsyncClient (-1) with has_error_cb := true, has_discard_cb := true }

/-- A 1-byte owned buffer already fully written (completed at t=40). -/
def doneBuf : queued_writebuf :=
  { data := [7], length := 1, written := 1, queued_at := 0, written_at := 40,
    write_errno := 0, owned := true }

/-- An ESTABLISHED client whose head buffer is fully written, with an
on_ack callback registered and rx_last_packet = 10. -/
def doneC : AsyncClient :=
  { mkAsyncClient 5 with
      _writeQueue := [doneBuf],
      _rx_last_packet := 10,
      has_sent_cb := true }

/-
  Theorems.  First a collection of helper lemmas shared between the claim
  theorems, then one theorem (plus witness / counterexample) per claim.
-/

/-- Every event produced by dropping the write queue is a freeBuf of an
owned buffer's data. -/
theorem mem_clearWriteQueue_events (q : List queued_writebuf) (e : CbEvent)
    (h : e ∈ q.filterMap
      (fun b => if b.owned then some (CbEvent.freeBuf b.data) else none)) :
    ∃ b, b ∈ q ∧ e = CbEvent.freeBuf b.data := by
  rcases List.mem_filterMap.mp h with ⟨b, hb, he⟩
  refine ⟨b, hb, ?_⟩
  by_cases ho : b.owned = true
  · rw [if_pos ho] at he
    exact (Option.some.injEq _ _ ▸ he).symm
  · rw [if_neg ho] at he
    cases he

/-- The close teardown never emits an on_timeout event. -/
theorem onTimeout_not_mem_close (c : AsyncClient) (d : Nat) :
    CbEvent.onTimeout d ∉ (_close c).2 := by
  intro h
  unfold _close at h
  rcases List.mem_append.mp h with h1 | h2
  · rcases mem_clearWriteQueue_events _ _ h1 with ⟨b, _, hb⟩
    cases hb
  · by_cases hd : c.has_discard_cb = true
    · rw [if_pos hd] at h2
      simp at h2
    · rw [if_neg hd] at h2
      cases h2

/-- The close teardown never emits an on_error event. -/
theorem onError_not_mem_close (c : AsyncClient) (err : Int) :
    CbEvent.onError err ∉ (_close c).2 := by
  intro h
  unfold _close at h
  rcases List.mem_append.mp h with h1 | h2
  · rcases mem_clearWriteQueue_events _ _ h1 with ⟨b, _, hb⟩
    cases hb
  · by_cases hd : c.has_discard_cb = true
    · rw [if_pos hd] at h2
      simp at h2
    · rw [if_neg hd] at h2
      cases h2

/-- Wrapping uint32 subtraction agrees with natural subtraction below the
wrap point. -/
theorem sub32_of_le (a b : Nat) (hba : b ≤ a) (ha : a < 4294967296) :
    sub32 a b = a - b := by
  unfold sub32
  have hb : b < 4294967296 := lt_of_le_of_lt hba ha
  rw [Nat.mod_eq_of_lt ha, Nat.mod_eq_of_lt hb]
  have h1 : a + 4294967296 - b = (a - b) + 4294967296 := by omega
  rw [h1, Nat.add_mod_right, Nat.mod_eq_of_lt (by omega)]

/-- Claim C1 (evaluation of the defect): on a client with an open
descriptor and an EMPTY write queue, the idle-poll hook reads the head
buffer of the empty queue — _sockPoll computes now - front().queued_at
BEFORE checking size() > 0 — and send() after a successful writability
probe reaches _writeQueue.front() through _flushWriteQueue.  Both are
undefined behaviour on an empty std::deque, modelled here as `none`; the
claim states the head buffer is never accessed and send without add is a
no-op. -/
theorem sockPoll_and_send_access_empty_head :
    _sockPoll (mkAsyncClient 5) 1000 = none ∧
    send (mkAsyncClient 5) true (WriteRes.ok 0) 1000 = none :=
  ⟨rfl, rfl⟩

/-- Claim C2 counterexample: flush-head makes only ONE write attempt per
call (an `if`, not the claimed `while` loop).  On a 2-byte head buffer a
successful write of 1 byte returns with the head neither fully written,
nor stopped by EAGAIN/EWOULDBLOCK, nor error-latched — contradicting the
claimed postcondition. -/
theorem flush_head_partial_write_counterexample :
    _flushWriteQueue halfClient (WriteRes.ok 1) 50 =
      some ({ halfClient with
                _writeQueue := [{ halfBuf with written := 1 }],
                _writeSpaceRemaining := 5841 }, true) ∧
    ¬ flushPostClaim { halfBuf with written := 1 } (WriteRes.ok 1) 50 := by
  refine ⟨rfl, ?_⟩
  intro hpc
  rcases hpc with ⟨h1, _⟩ | ⟨e, he, _⟩ | h3
  · exact absurd h1 (by decide)
  · cases he
  · exact h3 rfl

/-- Claim C2 (amended): flush-head on a non-empty queue whose head has no
latched error and is not fully written makes exactly one write attempt:
either the write succeeds, advancing written and the write space by r and
stamping written_at := now exactly when the head becomes fully written (a
short write leaves the head partially written with no error recorded); or
it fails with EAGAIN/EWOULDBLOCK and nothing changes; or the errno is
latched into the head's write_errno. -/
theorem flush_head_single_attempt (c : AsyncClient) (qwb : queued_writebuf)
    (rest : List queued_writebuf) (wr : WriteRes) (now : Nat)
    (hs : c._socket ≠ -1) (hq : c._writeQueue = qwb :: rest)
    (he : qwb.write_errno = 0) (hw : qwb.written < qwb.length) :
    (∃ r, wr = WriteRes.ok r ∧
       _flushWriteQueue c wr now =
         some ({ c with
                   _writeQueue :=
                     { qwb with written := qwb.written + r,
                                written_at := if qwb.length ≤ qwb.written + r
                                              then now else qwb.written_at } :: rest,
                   _writeSpaceRemaining := c._writeSpaceRemaining + r }, true)) ∨
    (∃ e, wr = WriteRes.err e ∧ (e = EAGAIN ∨ e = EWOULDBLOCK) ∧
       _flushWriteQueue c wr now = some (c, false)) ∨
    (∃ e, wr = WriteRes.err e ∧ ¬(e = EAGAIN ∨ e = EWOULDBLOCK) ∧
       _flushWriteQueue c wr now =
         some ({ c with
                   _writeQueue := { qwb with write_errno := e } :: rest,
                   _writeSpaceRemaining := c._writeSpaceRemaining }, false)) := by
  cases wr with
  | ok r =>
      refine Or.inl ⟨r, rfl, ?_⟩
      simp [_flushWriteQueue, hs, hq, flushCore, he, hw]
  | err e =>
      by_cases hea : e = EAGAIN ∨ e = EWOULDBLOCK
      · refine Or.inr (Or.inl ⟨e, rfl, hea, ?_⟩)
        have hfc : flushCore qwb c._writeSpaceRemaining (WriteRes.err e) now =
            (qwb, c._writeSpaceRemaining, false) := by
          simp [flushCore, he, hw, hea]
        simp only [_flushWriteQueue, if_neg hs, hq, hfc]
        rw [← hq]
      · refine Or.inr (Or.inr ⟨e, rfl, hea, ?_⟩)
        simp [_flushWriteQueue, hs, hq, flushCore, he, hw, hea]

/-- Witness for flush_head_single_attempt: a full 2-byte write on
halfClient retires into the fully-written, timestamped head. -/
theorem flush_head_single_attempt_witness :
    _flushWriteQueue halfClient (WriteRes.ok 2) 50 =
      some ({ halfClient with
                _writeQueue := [{ halfBuf with written := 2, written_at := 50 }],
                _writeSpaceRemaining := 5842 }, true) := by
  rcases flush_head_single_attempt halfClient halfBuf [] (WriteRes.ok 2) 50
      (by decide) rfl rfl (by decide) with
    ⟨r, hr, hres⟩ | ⟨e, he, _, _⟩ | ⟨e, he, _, _⟩
  · cases hr
    simpa using hres
  · cases he
  · cases he

/-- Claim C8: a readable hook whose non-blocking read returns 0 (peer
closed) runs the close teardown — conn_state becomes CLOSED, the
descriptor is -1, the queue is dropped with owned data freed — fires
on_disconnect iff registered, and never fires on_error on that path. -/
theorem peer_close_runs_close_teardown (c : AsyncClient) (now : Nat) :
    (_sockIsReadable c ReadRes.eof now).1._conn_state = 0 ∧
    (_sockIsReadable c ReadRes.eof now).1._socket = -1 ∧
    (_sockIsReadable c ReadRes.eof now).1._writeQueue = [] ∧
    (_sockIsReadable c ReadRes.eof now).2 =
      c._writeQueue.filterMap
        (fun b => if b.owned then some (CbEvent.freeBuf b.data) else none) ++
      (if c.has_discard_cb then [CbEvent.onDisconnect] else []) ∧
    ∀ err, CbEvent.onError err ∉ (_sockIsReadable c ReadRes.eof now).2 := by
  refine ⟨rfl, rfl, rfl, rfl, ?_⟩
  intro err h
  exact onError_not_mem_close { c with _rx_last_packet := now } err h

/-- Claim C9: after DNS completion the delayed-connect hook issues the
IPv4 connect(connect_addr, connect_port) path when connect_addr resolved
nonzero; when it is zero (resolution failed) it fires on_error(-55) and
then on_disconnect, in that order (both callbacks registered here). -/
theorem delayed_connect_dns_outcome (c : AsyncClient) (sockRes : Option Nat)
    (connRes : Option Int)
    (he : c.has_error_cb = true) (hd : c.has_discard_cb = true) :
    (c._connect_addr ≠ 0 →
       _sockDelayedConnect c sockRes connRes =
         ((connectIP c c._connect_addr c._connect_port sockRes connRes).1, [])) ∧
    (c._connect_addr = 0 →
       _sockDelayedConnect c sockRes connRes =
         (c, [CbEvent.onError (-55), CbEvent.onDisconnect])) := by
  constructor
  · intro h
    simp [_sockDelayedConnect, h]
  · intro h
    simp [_sockDelayedConnect, h, he, hd]

/-- Witness for delayed_connect_dns_outcome: a failed resolution on a
client with both callbacks fires exactly [on_error(-55), on_disconnect]. -/
theorem delayed_connect_dns_outcome_witness :
    _sockDelayedConnect dnsFailC none none =
      (dnsFailC, [CbEvent.onError (-55), CbEvent.onDisconnect]) :=
  (delayed_connect_dns_outcome dnsFailC none none rfl rfl).2 rfl

/-- The code's will_send expression equals min(size, room). -/
theorem will_send_eq_min (a b : Nat) : (if a < b then a else b) = min b a := by
  rcases Nat.lt_or_ge a b with h | h
  · rw [if_pos h, min_eq_right (Nat.le_of_lt h)]
  · rw [if_neg (Nat.not_lt.mpr h), min_eq_left h]

/-- add() returns 0 and leaves the client unchanged on any of its reject
conditions: not connected, null data, zero size, zero space, or
COPY-malloc failure. -/
theorem add_rejects (c : AsyncClient) (data : Option (List Nat))
    (size apiflags now : Nat) (allocOk : Bool)
    (h : ¬connected c = true ∨ data = none ∨ size = 0 ∨ space c = 0 ∨
         (apiflags &&& ASYNC_WRITE_FLAG_COPY ≠ 0 ∧ allocOk = false)) :
    add c data size apiflags now allocOk = (c, 0) := by
  unfold add
  rcases h with h | h | h | h | ⟨h1, h2⟩
  · rw [if_pos (Or.inl h)]
  · rw [if_pos (Or.inr (Or.inl h))]
  · rw [if_pos (Or.inr (Or.inr h))]
  · by_cases hg : (¬connected c = true ∨ data = none ∨ size = 0)
    · rw [if_pos hg]
    · rw [if_neg hg]
      simp [h]
  · by_cases hg : (¬connected c = true ∨ data = none ∨ size = 0)
    · rw [if_pos hg]
    · rw [if_neg hg]
      by_cases hr : space c = 0
      · simp [hr]
      · simp [hr, h1, h2]

/-- add() with the COPY flag, on a connected client with room, appends one
owned buffer holding a copy of the accepted prefix. -/
theorem add_accept_copy (c : AsyncClient) (bs : List Nat)
    (size apiflags now : Nat) (allocOk : Bool)
    (hcn : connected c = true) (hsz : size ≠ 0)
    (hsp : c._writeSpaceRemaining ≠ 0)
    (hcopy : apiflags &&& ASYNC_WRITE_FLAG_COPY ≠ 0) (hall : allocOk = true) :
    add c (some bs) size apiflags now allocOk =
      ({ c with
           _writeQueue := c._writeQueue ++
             [{ data := bs.take (if c._writeSpaceRemaining < size then
                                   c._writeSpaceRemaining else size),
                length := if c._writeSpaceRemaining < size then
                            c._writeSpaceRemaining else size,
                written := 0, queued_at := now, written_at := 0,
                write_errno := 0, owned := true }],
           _writeSpaceRemaining := c._writeSpaceRemaining -
             (if c._writeSpaceRemaining < size then c._writeSpaceRemaining
              else size),
           _ack_timeout_signaled := false },
       if c._writeSpaceRemaining < size then c._writeSpaceRemaining
       else size) := by
  simp [add, hcn, hsz, space, hsp, hcopy, hall]

/-- add() without the COPY flag, on a connected client with room, appends
one non-owned buffer storing the caller's pointer. -/
theorem add_accept_nocopy (c : AsyncClient) (bs : List Nat)
    (size apiflags now : Nat) (allocOk : Bool)
    (hcn : connected c = true) (hsz : size ≠ 0)
    (hsp : c._writeSpaceRemaining ≠ 0)
    (hcopy : apiflags &&& ASYNC_WRITE_FLAG_COPY = 0) :
    add c (some bs) size apiflags now allocOk =
      ({ c with
           _writeQueue := c._writeQueue ++
             [{ data := bs,
                length := if c._writeSpaceRemaining < size then
                            c._writeSpaceRemaining else size,
                written := 0, queued_at := now, written_at := 0,
                write_errno := 0, owned := false }],
           _writeSpaceRemaining := c._writeSpaceRemaining -
             (if c._writeSpaceRemaining < size then c._writeSpaceRemaining
              else size),
           _ack_timeout_signaled := false },
       if c._writeSpaceRemaining < size then c._writeSpaceRemaining
       else size) := by
  simp [add, hcn, hsz, space, hsp, hcopy]

/-- Exhaustive outcomes of one flush attempt on the head buffer. -/
theorem flushCore_cases (qwb : queued_writebuf) (wsr : Nat) (wr : WriteRes)
    (now : Nat) :
    (∃ r, wr = WriteRes.ok r ∧ qwb.write_errno = 0 ∧
       qwb.written < qwb.length ∧
       flushCore qwb wsr wr now =
         ({ qwb with written := qwb.written + r,
                     written_at := if qwb.length ≤ qwb.written + r then now
                                   else qwb.written_at }, wsr + r, true)) ∨
    flushCore qwb wsr wr now = (qwb, wsr, false) ∨
    (∃ e, wr = WriteRes.err e ∧
       flushCore qwb wsr wr now =
         ({ qwb with write_errno := e }, wsr, false)) := by
  by_cases hc : qwb.write_errno = 0 ∧ qwb.written < qwb.length
  · cases wr with
    | ok r =>
        refine Or.inl ⟨r, rfl, hc.1, hc.2, ?_⟩
        unfold flushCore
        rw [if_pos hc]
    | err e =>
        by_cases hea : e = EAGAIN ∨ e = EWOULDBLOCK
        · refine Or.inr (Or.inl ?_)
          unfold flushCore
          rw [if_pos hc]
          dsimp only
          rw [if_pos hea]
        · refine Or.inr (Or.inr ⟨e, rfl, ?_⟩)
          unfold flushCore
          rw [if_pos hc]
          dsimp only
          rw [if_neg hea]
  · refine Or.inr (Or.inl ?_)
    unfold flushCore
    rw [if_neg hc]

/-- A flush attempt never changes the head's data pointer, total length,
ownership or enqueue timestamp. -/
theorem flushCore_fixed_fields (qwb : queued_writebuf) (wsr : Nat)
    (wr : WriteRes) (now : Nat) :
    (flushCore qwb wsr wr now).1.length = qwb.length ∧
    (flushCore qwb wsr wr now).1.data = qwb.data ∧
    (flushCore qwb wsr wr now).1.owned = qwb.owned ∧
    (flushCore qwb wsr wr now).1.queued_at = qwb.queued_at := by
  rcases flushCore_cases qwb wsr wr now with
    ⟨r, _, _, _, hfc⟩ | hfc | ⟨e, _, hfc⟩ <;>
  · rw [hfc]
    exact ⟨rfl, rfl, rfl, rfl⟩

/-- Claim C3: the space-accounting identity — writeSpaceRemaining equals
the initial window (TCP_SND_BUF) minus the sum of lengths plus the sum of
written counts over the enqueued buffers — holds for a freshly constructed
client and is preserved by every add (each accepted enqueue decrements the
space by the accepted length) and by every flush-head call (each
successful write increments written and the space by the same number of
bytes). -/
theorem write_space_accounting :
    (∀ sockfd : Int, spaceAccounting (mkAsyncClient sockfd)) ∧
    (∀ c data size apiflags now allocOk, spaceAccounting c →
       spaceAccounting (add c data size apiflags now allocOk).1) ∧
    (∀ c wr now c' act, spaceAccounting c →
       _flushWriteQueue c wr now = some (c', act) → spaceAccounting c') := by
  refine ⟨?_, ?_, ?_⟩
  · intro sockfd
    simp [spaceAccounting, mkAsyncClient, sumLen, sumWritten]
  · intro c data size apiflags now allocOk h
    rcases data with _ | bs
    · rw [add_rejects c none size apiflags now allocOk (Or.inr (Or.inl rfl))]
      exact h
    by_cases hcn : connected c = true
    case neg =>
      rw [add_rejects _ _ _ _ _ _ (Or.inl hcn)]
      exact h
    by_cases hsz : size = 0
    · rw [add_rejects _ _ _ _ _ _ (Or.inr (Or.inr (Or.inl hsz)))]
      exact h
    by_cases hsp : c._writeSpaceRemaining = 0
    · rw [add_rejects _ _ _ _ _ _
        (Or.inr (Or.inr (Or.inr (Or.inl (by simp [space, hcn, hsp])))))]
      exact h
    by_cases hcopy : apiflags &&& ASYNC_WRITE_FLAG_COPY ≠ 0
    · by_cases hall : allocOk = true
      · rw [add_accept_copy c bs size apiflags now allocOk hcn hsz hsp hcopy hall]
        unfold spaceAccounting sumLen sumWritten at h ⊢
        simp only [List.map_append, List.sum_append, List.map_cons,
          List.map_nil, List.sum_cons, List.sum_nil]
        split <;> omega
      · have hfalse : allocOk = false := by
          revert hall
          cases allocOk <;> simp
        rw [add_rejects _ _ _ _ _ _
          (Or.inr (Or.inr (Or.inr (Or.inr ⟨hcopy, hfalse⟩))))]
        exact h
    · have hc0 : apiflags &&& ASYNC_WRITE_FLAG_COPY = 0 := by
        revert hcopy
        by_cases hx : apiflags &&& ASYNC_WRITE_FLAG_COPY = 0 <;> simp [hx]
      rw [add_accept_nocopy c bs size apiflags now allocOk hcn hsz hsp hc0]
      unfold spaceAccounting sumLen sumWritten at h ⊢
      simp only [List.map_append, List.sum_append, List.map_cons,
        List.map_nil, List.sum_cons, List.sum_nil]
      split <;> omega
  · intro c wr now c' act h hf
    by_cases hs : c._socket = -1
    · have hcomp : _flushWriteQueue c wr now = some (c, false) := by
        unfold _flushWriteQueue
        rw [if_pos hs]
      rw [hcomp] at hf
      simp only [Option.some.injEq, Prod.mk.injEq] at hf
      obtain ⟨h1, _⟩ := hf
      rw [← h1]
      exact h
    · rcases hqq : c._writeQueue with _ | ⟨qwb, rest⟩
      · have hcomp : _flushWriteQueue c wr now = none := by
          unfold _flushWriteQueue
          rw [if_neg hs, hqq]
        rw [hcomp] at hf
        cases hf
      · rcases flushCore_cases qwb c._writeSpaceRemaining wr now with
          ⟨r, _, _, _, hfc⟩ | hfc | ⟨e, _, hfc⟩ <;>
        · have hcomp : _flushWriteQueue c wr now =
              some ({ c with
                        _writeQueue :=
                          (flushCore qwb c._writeSpaceRemaining wr now).1 :: rest,
                        _writeSpaceRemaining :=
                          (flushCore qwb c._writeSpaceRemaining wr now).2.1 },
                    (flushCore qwb c._writeSpaceRemaining wr now).2.2) := by
            unfold _flushWriteQueue
            rw [if_neg hs, hqq]
          rw [hfc] at hcomp
          rw [hcomp] at hf
          simp only [Option.some.injEq, Prod.mk.injEq] at hf
          obtain ⟨h1, _⟩ := hf
          rw [← h1]
          unfold spaceAccounting sumLen sumWritten at h ⊢
          rw [hqq] at h
          simp only [List.map_cons, List.sum_cons] at h ⊢
          omega

/-- Witness for write_space_accounting: the identity holds for a fresh
client, after a 2-byte enqueue, and after a 1-byte flush. -/
theorem write_space_accounting_witness :
    spaceAccounting (mkAsyncClient 5) ∧
    spaceAccounting (add (mkAsyncClient 5) (some [1, 2]) 2 1 0 true).1 ∧
    spaceAccounting
      ((_flushWriteQueue (add (mkAsyncClient 5) (some [1, 2]) 2 1 0 true).1
          (WriteRes.ok 1) 7).getD (mkAsyncClient 5, false)).1 := by
  have h1 := write_space_accounting.1 5
  have h2 := write_space_accounting.2.1 (mkAsyncClient 5) (some [1, 2]) 2 1 0
    true h1
  refine ⟨h1, h2, write_space_accounting.2.2 _ (WriteRes.ok 1) 7 _ true h2 ?_⟩
  rfl

/-- Claim C6 counterexample: on an ESTABLISHED client with a full window, a
4-byte COPY add whose malloc fails returns 0 and changes nothing, although
none of the claim's four zero-return conditions holds (the client is
connected, data is non-null, size is 4 > 0 and space is 5840 ≠ 0) and the
claim requires accepting will_send = min(4, 5840) = 4. -/
theorem add_alloc_failure_counterexample :
    connected (mkAsyncClient 5) = true ∧ space (mkAsyncClient 5) = 5840 ∧
    min 4 (space (mkAsyncClient 5)) = 4 ∧
    add (mkAsyncClient 5) (some [1, 2, 3, 4]) 4 ASYNC_WRITE_FLAG_COPY 100 false
      = (mkAsyncClient 5, 0) := by
  refine ⟨rfl, rfl, rfl, ?_⟩
  exact add_rejects _ _ _ _ _ _ (Or.inr (Or.inr (Or.inr (Or.inr
    ⟨by decide, rfl⟩))))

/-- Claim C6 (amended): add returns 0 and leaves the client unchanged when
the client is not ESTABLISHED, data is null, size is 0, available space is
0, or the COPY-flag allocation fails; otherwise it accepts
will_send = min(size, space()) bytes, appends one buffer with written = 0
and write_errno = 0 and queued_at = now (an owned copy of the accepted
prefix when COPY is set, the caller's pointer otherwise), decrements
writeSpaceRemaining by will_send, clears the ack-timeout latch and returns
will_send. -/
theorem add_characterization (c : AsyncClient) (data : Option (List Nat))
    (size apiflags now : Nat) (allocOk : Bool) :
    ((¬connected c = true ∨ data = none ∨ size = 0 ∨ space c = 0 ∨
        (apiflags &&& ASYNC_WRITE_FLAG_COPY ≠ 0 ∧ allocOk = false)) →
       add c data size apiflags now allocOk = (c, 0)) ∧
    (∀ bs, data = some bs → connected c = true → size ≠ 0 → space c ≠ 0 →
       apiflags &&& ASYNC_WRITE_FLAG_COPY ≠ 0 → allocOk = true →
       add c data size apiflags now allocOk =
         ({ c with
              _writeQueue := c._writeQueue ++
                [{ data := bs.take (min size (space c)),
                   length := min size (space c), written := 0,
                   queued_at := now, written_at := 0, write_errno := 0,
                   owned := true }],
              _writeSpaceRemaining := c._writeSpaceRemaining -
                min size (space c),
              _ack_timeout_signaled := false },
          min size (space c))) ∧
    (∀ bs, data = some bs → connected c = true → size ≠ 0 → space c ≠ 0 →
       apiflags &&& ASYNC_WRITE_FLAG_COPY = 0 →
       add c data size apiflags now allocOk =
         ({ c with
              _writeQueue := c._writeQueue ++
                [{ data := bs, length := min size (space c), written := 0,
                   queued_at := now, written_at := 0, write_errno := 0,
                   owned := false }],
              _writeSpaceRemaining := c._writeSpaceRemaining -
                min size (space c),
              _ack_timeout_signaled := false },
          min size (space c))) := by
  refine ⟨add_rejects c data size apiflags now allocOk, ?_, ?_⟩
  · intro bs hbs hcn hsz hsp hcopy hall
    subst hbs
    have hspace : space c = c._writeSpaceRemaining := by simp [space, hcn]
    have hwsr : c._writeSpaceRemaining ≠ 0 := by
      rw [hspace] at hsp
      exact hsp
    rw [hspace, ← will_send_eq_min c._writeSpaceRemaining size]
    exact add_accept_copy c bs size apiflags now allocOk hcn hsz hwsr hcopy hall
  · intro bs hbs hcn hsz hsp hcopy
    subst hbs
    have hspace : space c = c._writeSpaceRemaining := by simp [space, hcn]
    have hwsr : c._writeSpaceRemaining ≠ 0 := by
      rw [hspace] at hsp
      exact hsp
    rw [hspace, ← will_send_eq_min c._writeSpaceRemaining size]
    exact add_accept_nocopy c bs size apiflags now allocOk hcn hsz hwsr hcopy

/-- Witness for add_characterization: a 3-byte COPY enqueue on a fresh
ESTABLISHED client is accepted in full. -/
theorem add_characterization_witness :
    connected (mkAsyncClient 5) = true ∧
    add (mkAsyncClient 5) (some [9, 8, 7]) 3 1 100 true =
      ({ mkAsyncClient 5 with
           _writeQueue := [{ data := [9, 8, 7], length := 3, written := 0,
                             queued_at := 100, written_at := 0,
                             write_errno := 0, owned := true }],
           _writeSpaceRemaining := 5837,
           _ack_timeout_signaled := false },
       3) := by
  refine ⟨rfl, ?_⟩
  have h := (add_characterization (mkAsyncClient 5) (some [9, 8, 7]) 3 1 100
    true).2.1 [9, 8, 7] rfl rfl (by decide) (by decide) (by decide) rfl
  simpa using h

/-- Outcomes of the writable hook outside the connecting states on a
non-empty queue, in terms of the flush result (h, wsr, act): error
teardown on a latched write error; head retirement when fully written;
otherwise plain partial progress. -/
theorem writable_est_cases (c : AsyncClient) (so : SoErrRes) (wr : WriteRes)
    (now : Nat) (qwb h : queued_writebuf) (rest : List queued_writebuf)
    (wsr : Nat) (act : Bool)
    (hnot : ¬(c._conn_state = 2 ∨ c._conn_state = 3))
    (hq : c._writeQueue = qwb :: rest)
    (hfc : flushCore qwb c._writeSpaceRemaining wr now = (h, wsr, act)) :
    (h.write_errno ≠ 0 ∧
       _sockIsWriteable c so wr now =
         ((_error { c with _writeQueue := h :: rest,
                           _writeSpaceRemaining := wsr } h.write_errno).1, act,
          (_error { c with _writeQueue := h :: rest,
                           _writeSpaceRemaining := wsr } h.write_errno).2)) ∨
    (h.write_errno = 0 ∧ h.length ≤ h.written ∧
       _sockIsWriteable c so wr now =
         ({ c with _writeQueue := rest, _writeSpaceRemaining := wsr,
                   _rx_last_packet := if c._rx_last_packet < h.written_at
                                      then h.written_at
                                      else c._rx_last_packet },
          act,
          (if h.owned then [CbEvent.freeBuf h.data] else []) ++
          (if h.length ≠ 0 ∧ c.has_sent_cb then
             [CbEvent.onAck h.length (sub32 h.written_at h.queued_at)]
           else []))) ∨
    (h.write_errno = 0 ∧ h.written < h.length ∧
       _sockIsWriteable c so wr now =
         ({ c with _writeQueue := h :: rest, _writeSpaceRemaining := wsr },
          act, [])) := by
  have h0 : _sockIsWriteable c so wr now =
      (fun p : queued_writebuf × Nat × Bool =>
        if p.1.write_errno ≠ 0 then
          ((_error { c with _writeQueue := p.1 :: rest,
                            _writeSpaceRemaining := p.2.1 } p.1.write_errno).1,
           p.2.2,
           (_error { c with _writeQueue := p.1 :: rest,
                            _writeSpaceRemaining := p.2.1 } p.1.write_errno).2)
        else if p.1.length ≤ p.1.written then
          ({ c with _writeQueue := rest, _writeSpaceRemaining := p.2.1,
                    _rx_last_packet := if c._rx_last_packet < p.1.written_at
                                       then p.1.written_at
                                       else c._rx_last_packet },
           p.2.2,
           (if p.1.owned then [CbEvent.freeBuf p.1.data] else []) ++
           (if p.1.length ≠ 0 ∧ c.has_sent_cb then
              [CbEvent.onAck p.1.length (sub32 p.1.written_at p.1.queued_at)]
            else []))
        else
          ({ c with _writeQueue := p.1 :: rest,
                    _writeSpaceRemaining := p.2.1 },
           p.2.2, []))
        (flushCore qwb c._writeSpaceRemaining wr now) := by
    unfold _sockIsWriteable
    rw [if_neg hnot, hq]
  rw [hfc] at h0
  dsimp only at h0
  by_cases herr : h.write_errno ≠ 0
  · rw [if_pos herr] at h0
    exact Or.inl ⟨herr, h0⟩
  · rw [if_neg herr] at h0
    by_cases hful : h.length ≤ h.written
    · rw [if_pos hful] at h0
      exact Or.inr (Or.inl ⟨not_not.mp herr, hful, h0⟩)
    · rw [if_neg hful] at h0
      exact Or.inr (Or.inr ⟨not_not.mp herr, Nat.not_le.mp hful, h0⟩)

/-- countAck distributes over append. -/
theorem countAck_append (l1 l2 : List CbEvent) :
    countAck (l1 ++ l2) = countAck l1 + countAck l2 := by
  simp [countAck, List.countP_append]

/-- Dropping the write queue emits no on_ack event. -/
theorem countAck_free_events (q : List queued_writebuf) :
    countAck (q.filterMap
      (fun b => if b.owned then some (CbEvent.freeBuf b.data) else none))
      = 0 := by
  unfold countAck
  rw [List.countP_eq_zero]
  intro e he
  rcases mem_clearWriteQueue_events q e he with ⟨b, _, rfl⟩
  simp

/-- The error teardown emits no on_ack event. -/
theorem countAck_error_events (c : AsyncClient) (err : Int) :
    countAck (_error c err).2 = 0 := by
  have hfree := countAck_free_events c._writeQueue
  have h1 : countAck (if c.has_error_cb then [CbEvent.onError err] else [])
      = 0 := by
    split <;> simp [countAck]
  have h2 : countAck (if c.has_discard_cb then [CbEvent.onDisconnect] else [])
      = 0 := by
    split <;> simp [countAck]
  unfold _error _clearWriteQueue
  dsimp only
  rw [countAck_append, countAck_append, hfree, h1, h2]

/-- Claim C7: on an ESTABLISHED client the writable hook retires at most
one buffer per tick (at most one on_ack event is emitted), and whenever
the head buffer is fully written after the flush with no write error it is
popped, its data is freed iff owned, and on_ack fires exactly once with
the buffer's length and delay written_at - queued_at. -/
theorem writable_single_retire (c : AsyncClient) (so : SoErrRes)
    (wr : WriteRes) (now : Nat) (qwb : queued_writebuf)
    (rest : List queued_writebuf)
    (hst : c._conn_state = 4) (hq : c._writeQueue = qwb :: rest)
    (hcb : c.has_sent_cb = true) (hlen : 0 < qwb.length) :
    countAck (_sockIsWriteable c so wr now).2.2 ≤ 1 ∧
    (∀ h wsr act,
       flushCore qwb c._writeSpaceRemaining wr now = (h, wsr, act) →
       h.write_errno = 0 → h.length ≤ h.written →
       (_sockIsWriteable c so wr now).1._writeQueue = rest ∧
       (_sockIsWriteable c so wr now).2.2 =
         (if h.owned then [CbEvent.freeBuf h.data] else []) ++
         [CbEvent.onAck h.length (sub32 h.written_at h.queued_at)]) := by
  have hnot : ¬(c._conn_state = 2 ∨ c._conn_state = 3) := by simp [hst]
  constructor
  · rcases hfc : flushCore qwb c._writeSpaceRemaining wr now with ⟨h, wsr, act⟩
    rcases writable_est_cases c so wr now qwb h rest wsr act hnot hq hfc with
      ⟨_, heq⟩ | ⟨_, _, heq⟩ | ⟨_, _, heq⟩
    · rw [heq]
      dsimp only
      rw [countAck_error_events]
      exact Nat.zero_le 1
    · rw [heq]
      dsimp only
      rw [countAck_append]
      have h1 : countAck (if h.owned then [CbEvent.freeBuf h.data] else [])
          = 0 := by
        split <;> simp [countAck]
      have h2 : countAck (if h.length ≠ 0 ∧ c.has_sent_cb then
          [CbEvent.onAck h.length (sub32 h.written_at h.queued_at)]
          else []) ≤ 1 := by
        split <;> simp [countAck]
      omega
    · rw [heq]
      simp [countAck]
  · intro h wsr act hfc he0 hful
    rcases writable_est_cases c so wr now qwb h rest wsr act hnot hq hfc with
      ⟨herr, _⟩ | ⟨_, _, heq⟩ | ⟨_, hwl, _⟩
    · exact absurd he0 herr
    · rw [heq]
      refine ⟨rfl, ?_⟩
      have hlq : h.length = qwb.length := by
        have hx := (flushCore_fixed_fields qwb c._writeSpaceRemaining wr now).1
        rw [hfc] at hx
        exact hx
      have hlen2 : h.length ≠ 0 := by omega
      have hpos : h.length ≠ 0 ∧ c.has_sent_cb = true := ⟨hlen2, hcb⟩
      dsimp only
      rw [if_pos hpos]
    · omega

/-- Witness for writable_single_retire: a fully-written owned head buffer
on doneC is popped, freed and acknowledged. -/
theorem writable_single_retire_witness :
    countAck (_sockIsWriteable doneC (SoErrRes.ok 0) (WriteRes.ok 0) 50).2.2
      ≤ 1 ∧
    (_sockIsWriteable doneC (SoErrRes.ok 0) (WriteRes.ok 0) 50).1._writeQueue
      = [] ∧
    (_sockIsWriteable doneC (SoErrRes.ok 0) (WriteRes.ok 0) 50).2.2 =
      [CbEvent.freeBuf [7], CbEvent.onAck 1 40] := by
  have h := writable_single_retire doneC (SoErrRes.ok 0) (WriteRes.ok 0) 50
    doneBuf [] rfl rfl rfl (by decide)
  refine ⟨h.1, (h.2 doneBuf 5840 false rfl rfl (by decide)).1, ?_⟩
  have h2 := (h.2 doneBuf 5840 false rfl rfl (by decide)).2
  simpa [doneBuf, sub32] using h2

/-- Claim C10: when the writable hook retires a fully written head buffer,
rx_last_packet advances to the completion stamp written_at whenever that
is later (it becomes max(rx_last_packet, written_at)); consequently, for
any later instant below the uint32 wrap, if the idle-poll rx-timeout
condition holds against the advanced stamp it already held against the old
one — completing an outbound buffer only defers the rx timeout, exactly as
receiving data does. -/
theorem outbound_completion_defers_rx_timeout (c : AsyncClient)
    (so : SoErrRes) (wr : WriteRes) (now : Nat) (qwb h : queued_writebuf)
    (rest : List queued_writebuf) (wsr : Nat) (act : Bool)
    (hst : c._conn_state = 4) (hq : c._writeQueue = qwb :: rest)
    (hfc : flushCore qwb c._writeSpaceRemaining wr now = (h, wsr, act))
    (he0 : h.write_errno = 0) (hful : h.length ≤ h.written) :
    (_sockIsWriteable c so wr now).1._rx_last_packet =
      max c._rx_last_packet h.written_at ∧
    (∀ t, c._rx_last_packet ≤ h.written_at → h.written_at ≤ t →
       t < 4294967296 →
       c._rx_since_timeout * 1000 % 4294967296 ≤
         sub32 t (_sockIsWriteable c so wr now).1._rx_last_packet →
       c._rx_since_timeout * 1000 % 4294967296 ≤
         sub32 t c._rx_last_packet) := by
  have hnot : ¬(c._conn_state = 2 ∨ c._conn_state = 3) := by simp [hst]
  rcases writable_est_cases c so wr now qwb h rest wsr act hnot hq hfc with
    ⟨herr, _⟩ | ⟨_, _, heq⟩ | ⟨_, hwl, _⟩
  · exact absurd he0 herr
  · have hrx : (_sockIsWriteable c so wr now).1._rx_last_packet =
        max c._rx_last_packet h.written_at := by
      rw [heq]
      dsimp only
      rcases Nat.lt_or_ge c._rx_last_packet h.written_at with hlt | hge
      · rw [if_pos hlt, max_eq_right (Nat.le_of_lt hlt)]
      · rw [if_neg (Nat.not_lt.mpr hge), max_eq_left hge]
    refine ⟨hrx, ?_⟩
    intro t h1 h2 h3 h4
    rw [hrx, max_eq_right h1, sub32_of_le t h.written_at h2 h3] at h4
    rw [sub32_of_le t c._rx_last_packet (le_trans h1 h2) h3]
    omega
  · omega

/-- Witness for outbound_completion_defers_rx_timeout: retiring doneBuf
(completed at t=40) advances doneC's rx_last_packet from 10 to 40. -/
theorem outbound_completion_defers_rx_timeout_witness :
    (_sockIsWriteable doneC (SoErrRes.ok 0) (WriteRes.ok 0) 50).1._rx_last_packet
      = 40 := by
  have h := outbound_completion_defers_rx_timeout doneC (SoErrRes.ok 0)
    (WriteRes.ok 0) 50 doneBuf doneBuf [] 5840 false rfl rfl rfl rfl
    (by decide)
  rw [h.1]
  decide

/-- The error teardown closes the descriptor, zeroes the state, drops the
queue and leaves the ack-timeout latch alone. -/
theorem error_shape (c : AsyncClient) (err : Int) :
    (_error c err).1._socket = -1 ∧ (_error c err).1._conn_state = 0 ∧
    (_error c err).1._writeQueue = [] ∧
    (_error c err).1._ack_timeout_signaled = c._ack_timeout_signaled :=
  ⟨rfl, rfl, rfl, rfl⟩

/-- The close teardown closes the descriptor, zeroes the state, drops the
queue and leaves the ack-timeout latch alone. -/
theorem close_shape (c : AsyncClient) :
    (_close c).1._socket = -1 ∧ (_close c).1._conn_state = 0 ∧
    (_close c).1._writeQueue = [] ∧
    (_close c).1._ack_timeout_signaled = c._ack_timeout_signaled :=
  ⟨rfl, rfl, rfl, rfl⟩

/-- add() never changes the descriptor or the connection state. -/
theorem add_frame (c : AsyncClient) (d : Option (List Nat))
    (sz fl now : Nat) (ok : Bool) :
    (add c d sz fl now ok).1._socket = c._socket ∧
    (add c d sz fl now ok).1._conn_state = c._conn_state := by
  unfold add
  split
  · exact ⟨rfl, rfl⟩
  · dsimp only
    split
    · exact ⟨rfl, rfl⟩
    · split
      · split
        · exact ⟨rfl, rfl⟩
        · exact ⟨rfl, rfl⟩
      · exact ⟨rfl, rfl⟩

/-- connected() implies conn_state = 4. -/
theorem connected_state (c : AsyncClient) (h : connected c = true) :
    c._conn_state = 4 := by
  unfold connected at h
  by_cases hs : c._socket = -1
  · rw [if_pos hs] at h
    cases h
  · rw [if_neg hs] at h
    exact eq_of_beq h

/-- _sockPoll on an open descriptor and non-empty queue: fire the ack
timeout, or close on rx timeout, or fire on_poll. -/
theorem sockPoll_cons (c : AsyncClient) (now : Nat) (qwb : queued_writebuf)
    (tl : List queued_writebuf)
    (hsk : ¬c._socket = -1) (hq : c._writeQueue = qwb :: tl) :
    _sockPoll c now =
      (if c._ack_timeout_signaled = false ∧ c._ack_timeout ≠ 0 ∧
          c._ack_timeout ≤ sub32 now qwb.queued_at then
         some ({ c with _ack_timeout_signaled := true },
               if c.has_timeout_cb then
                 [CbEvent.onTimeout (sub32 now qwb.queued_at)] else [])
       else if c._rx_since_timeout ≠ 0 ∧
           c._rx_since_timeout * 1000 % 4294967296 ≤
             sub32 now c._rx_last_packet then
         some (_close c)
       else
         some (c, if c.has_poll_cb then [CbEvent.onPoll] else [])) := by
  unfold _sockPoll
  rw [if_neg hsk, hq]

/-- _flushWriteQueue on an open descriptor and non-empty queue, expressed
through the flush result. -/
theorem flushWriteQueue_cons (c : AsyncClient) (wr : WriteRes) (now : Nat)
    (qwb : queued_writebuf) (tl : List queued_writebuf)
    (hsk : ¬c._socket = -1) (hq : c._writeQueue = qwb :: tl) :
    _flushWriteQueue c wr now =
      some ({ c with
                _writeQueue :=
                  (flushCore qwb c._writeSpaceRemaining wr now).1 :: tl,
                _writeSpaceRemaining :=
                  (flushCore qwb c._writeSpaceRemaining wr now).2.1 },
            (flushCore qwb c._writeSpaceRemaining wr now).2.2) := by
  unfold _flushWriteQueue
  rw [if_neg hsk, hq]

/-- The abstract effect of one step on the fields the client invariants
track (descriptor, state, queue emptiness, ack-timeout latch): teardown,
frame, enqueue, establishment, connect start, or ack-timeout latch. -/
theorem step_shape (c : AsyncClient) (a : Act) (c' : AsyncClient)
    (evs : List CbEvent) (hs : step c a = some (c', evs)) :
    (c'._socket = -1 ∧ c'._conn_state = 0 ∧ c'._writeQueue = [] ∧
       c'._ack_timeout_signaled = c._ack_timeout_signaled) ∨
    (c'._socket = c._socket ∧ c'._conn_state = c._conn_state ∧
       c'._ack_timeout_signaled = c._ack_timeout_signaled ∧
       (c._writeQueue = [] → c'._writeQueue = [])) ∨
    (a.isAddAct = true ∧ connected c = true ∧ c'._socket = c._socket ∧
       c'._conn_state = c._conn_state) ∨
    ((c._conn_state = 2 ∨ c._conn_state = 3) ∧ c'._socket = c._socket ∧
       c'._conn_state = 4 ∧ c'._writeQueue = c._writeQueue) ∨
    (c._socket = -1 ∧ (∃ fd : Nat, c'._socket = (fd : Int)) ∧
       c'._conn_state = 2 ∧ c'._writeQueue = c._writeQueue ∧
       c'._ack_timeout_signaled = c._ack_timeout_signaled) ∨
    (c'._socket = c._socket ∧ c'._conn_state = c._conn_state ∧
       c'._writeQueue = c._writeQueue ∧
       c'._ack_timeout_signaled = true) := by
  cases a with
  | aAdd d sz fl now ok =>
      simp only [step, Option.some.injEq, Prod.mk.injEq] at hs
      obtain ⟨h1, _⟩ := hs
      by_cases hcn : connected c = true
      · refine Or.inr (Or.inr (Or.inl ⟨rfl, hcn, ?_, ?_⟩))
        · rw [← h1]
          exact (add_frame c d sz fl now ok).1
        · rw [← h1]
          exact (add_frame c d sz fl now ok).2
      · have hr := add_rejects c d sz fl now ok
          (Or.inl hcn)
        rw [hr] at h1
        dsimp only at h1
        rw [← h1]
        exact Or.inr (Or.inl ⟨rfl, rfl, rfl, fun h => h⟩)
  | aWritable so wr now =>
      simp only [step, Option.some.injEq, Prod.mk.injEq] at hs
      obtain ⟨h1, _⟩ := hs
      by_cases h23 : (c._conn_state = 2 ∨ c._conn_state = 3)
      · cases so with
        | fail e =>
            have hcomp : (_sockIsWriteable c (SoErrRes.fail e) wr now).1 =
                (_error c e).1 := by
              unfold _sockIsWriteable
              rw [if_pos h23]
            rw [hcomp] at h1
            rw [← h1]
            exact Or.inl (error_shape c e)
        | ok sockerr =>
            by_cases hz : sockerr ≠ 0
            · have hcomp :
                  (_sockIsWriteable c (SoErrRes.ok sockerr) wr now).1 =
                  (_error c sockerr).1 := by
                unfold _sockIsWriteable
                rw [if_pos h23]
                dsimp only
                rw [if_pos hz]
              rw [hcomp] at h1
              rw [← h1]
              exact Or.inl (error_shape c sockerr)
            · have hcomp :
                  (_sockIsWriteable c (SoErrRes.ok sockerr) wr now).1 =
                  { c with _conn_state := 4, _rx_last_packet := now,
                           _ack_timeout_signaled := false } := by
                unfold _sockIsWriteable
                rw [if_pos h23]
                dsimp only
                rw [if_neg hz]
              rw [hcomp] at h1
              rw [← h1]
              exact Or.inr (Or.inr (Or.inr (Or.inl ⟨h23, rfl, rfl, rfl⟩)))
      · rcases hqq : c._writeQueue with _ | ⟨qwb, rest⟩
        · have hcomp : _sockIsWriteable c so wr now = (c, false, []) := by
            unfold _sockIsWriteable
            rw [if_neg h23, hqq]
          rw [hcomp] at h1
          rw [← h1]
          exact Or.inr (Or.inl ⟨rfl, rfl, rfl, fun _ => hqq⟩)
        · rcases hfc : flushCore qwb c._writeSpaceRemaining wr now with
            ⟨h, wsr2, act2⟩
          rcases writable_est_cases c so wr now qwb h rest wsr2 act2 h23 hqq
              hfc with ⟨_, heq⟩ | ⟨_, _, heq⟩ | ⟨_, _, heq⟩ <;>
            rw [heq] at h1 <;> rw [← h1]
          · exact Or.inl (error_shape
              { c with _writeQueue := h :: rest,
                       _writeSpaceRemaining := wsr2 } h.write_errno)
          · exact Or.inr (Or.inl ⟨rfl, rfl, rfl,
              fun hx => by simp [hqq] at hx⟩)
          · exact Or.inr (Or.inl ⟨rfl, rfl, rfl,
              fun hx => by simp [hqq] at hx⟩)
  | aReadable rr now =>
      cases rr with
      | got n =>
          simp only [step, Option.some.injEq] at hs
          have h1 := congrArg Prod.fst hs
          dsimp only at h1
          rw [← h1]
          exact Or.inr (Or.inl ⟨rfl, rfl, rfl, fun h => h⟩)
      | eof =>
          simp only [step, Option.some.injEq] at hs
          have h1 := congrArg Prod.fst hs
          dsimp only at h1
          rw [← h1]
          exact Or.inl (close_shape { c with _rx_last_packet := now })
      | fail e =>
          simp only [step, Option.some.injEq] at hs
          have h1 := congrArg Prod.fst hs
          dsimp only at h1
          have hcomp : _sockIsReadable c (ReadRes.fail e) now =
              (if e = EAGAIN ∨ e = EWOULDBLOCK then
                 ({ c with _rx_last_packet := now }, [])
               else _error { c with _rx_last_packet := now } e) := by
            unfold _sockIsReadable
            rfl
          rw [hcomp] at h1
          by_cases hea : e = EAGAIN ∨ e = EWOULDBLOCK
          · rw [if_pos hea] at h1
            rw [← h1]
            exact Or.inr (Or.inl ⟨rfl, rfl, rfl, fun h => h⟩)
          · rw [if_neg hea] at h1
            rw [← h1]
            exact Or.inl (error_shape { c with _rx_last_packet := now } e)
  | aPoll now =>
      simp only [step] at hs
      by_cases hsk : c._socket = -1
      · have hcomp : _sockPoll c now = some (c, []) := by
          unfold _sockPoll
          rw [if_pos hsk]
        rw [hcomp] at hs
        simp only [Option.some.injEq, Prod.mk.injEq] at hs
        obtain ⟨h1, _⟩ := hs
        rw [← h1]
        exact Or.inr (Or.inl ⟨rfl, rfl, rfl, fun h => h⟩)
      · rcases hqq : c._writeQueue with _ | ⟨qwb, tl⟩
        · have hcomp : _sockPoll c now = none := by
            unfold _sockPoll
            rw [if_neg hsk, hqq]
          rw [hcomp] at hs
          cases hs
        · rw [sockPoll_cons c now qwb tl hsk hqq] at hs
          by_cases hfire : c._ack_timeout_signaled = false ∧
              c._ack_timeout ≠ 0 ∧
              c._ack_timeout ≤ sub32 now qwb.queued_at
          · rw [if_pos hfire] at hs
            simp only [Option.some.injEq, Prod.mk.injEq] at hs
            obtain ⟨h1, _⟩ := hs
            rw [← h1]
            exact Or.inr (Or.inr (Or.inr (Or.inr (Or.inr
              ⟨rfl, rfl, hqq, rfl⟩))))
          · rw [if_neg hfire] at hs
            by_cases hrx : c._rx_since_timeout ≠ 0 ∧
                c._rx_since_timeout * 1000 % 4294967296 ≤
                  sub32 now c._rx_last_packet
            · rw [if_pos hrx] at hs
              have h1 : (_close c).1 = c' := by
                have := congrArg (fun p => Option.map Prod.fst p) hs
                simpa using this
              rw [← h1]
              exact Or.inl (close_shape _)
            · rw [if_neg hrx] at hs
              simp only [Option.some.injEq, Prod.mk.injEq] at hs
              obtain ⟨h1, _⟩ := hs
              rw [← h1]
              exact Or.inr (Or.inl ⟨rfl, rfl, rfl,
                fun hx => by simp [hqq] at hx⟩)
  | aSend w wr now =>
      simp only [step] at hs
      cases w with
      | false =>
          have hcomp : send c false wr now = some (c, true) := by
            unfold send
            rfl
          rw [hcomp] at hs
          simp only [Option.some.injEq, Prod.mk.injEq] at hs
          obtain ⟨h1, _⟩ := hs
          rw [← h1]
          exact Or.inr (Or.inl ⟨rfl, rfl, rfl, fun h => h⟩)
      | true =>
          by_cases hsk : c._socket = -1
          · have hcomp : send c true wr now = some (c, true) := by
              unfold send _flushWriteQueue
              rw [if_pos hsk]
              rfl
            rw [hcomp] at hs
            simp only [Option.some.injEq, Prod.mk.injEq] at hs
            obtain ⟨h1, _⟩ := hs
            rw [← h1]
            exact Or.inr (Or.inl ⟨rfl, rfl, rfl, fun h => h⟩)
          · rcases hqq : c._writeQueue with _ | ⟨qwb, tl⟩
            · have hcomp : send c true wr now = none := by
                unfold send
                have hn : _flushWriteQueue c wr now = none := by
                  unfold _flushWriteQueue
                  rw [if_neg hsk, hqq]
                rw [if_pos rfl]
                rw [hn]
              rw [hcomp] at hs
              cases hs
            · have hcomp : send c true wr now =
                  some ({ c with
                            _writeQueue :=
                              (flushCore qwb c._writeSpaceRemaining wr now).1
                                :: tl,
                            _writeSpaceRemaining :=
                              (flushCore qwb c._writeSpaceRemaining wr
                                now).2.1 },
                        true) := by
                unfold send
                rw [if_pos rfl, flushWriteQueue_cons c wr now qwb tl hsk hqq]
              rw [hcomp] at hs
              simp only [Option.some.injEq, Prod.mk.injEq] at hs
              obtain ⟨h1, _⟩ := hs
              rw [← h1]
              exact Or.inr (Or.inl ⟨rfl, rfl, rfl,
                fun hx => by simp [hqq] at hx⟩)
  | aClose =>
      have hstep : step c Act.aClose = some (close c) := rfl
      rw [hstep] at hs
      simp only [Option.some.injEq] at hs
      have h1 := congrArg Prod.fst hs
      dsimp only at h1
      by_cases hsk : c._socket ≠ -1
      · have hcomp : (close c).1 = (_close c).1 := by
          unfold close
          rw [if_pos hsk]
        rw [hcomp] at h1
        rw [← h1]
        exact Or.inl (close_shape c)
      · have hcomp : (close c).1 = c := by
          unfold close
          rw [if_neg hsk]
        rw [hcomp] at h1
        rw [← h1]
        exact Or.inr (Or.inl ⟨rfl, rfl, rfl, fun h => h⟩)
  | aConnect ip port sr cr =>
      have hstep : step c (Act.aConnect ip port sr cr) =
          some ((connectIP c ip port sr cr).1, []) := rfl
      rw [hstep] at hs
      simp only [Option.some.injEq, Prod.mk.injEq] at hs
      obtain ⟨h1, _⟩ := hs
      by_cases hsk : c._socket ≠ -1
      · have hcomp : (connectIP c ip port sr cr).1 = c := by
          unfold connectIP
          rw [if_pos hsk]
        rw [hcomp] at h1
        rw [← h1]
        exact Or.inr (Or.inl ⟨rfl, rfl, rfl, fun h => h⟩)
      · have hsk0 : c._socket = -1 := not_not.mp hsk
        rcases sr with _ | fd
        · have hcomp : (connectIP c ip port none cr).1 = c := by
            unfold connectIP
            rw [if_neg hsk]
          rw [hcomp] at h1
          rw [← h1]
          exact Or.inr (Or.inl ⟨rfl, rfl, rfl, fun h => h⟩)
        · rcases cr with _ | e
          · have hcomp : (connectIP c ip port (some fd) none).1 =
                { c with _conn_state := 2, _socket := (fd : Int) } := by
              unfold connectIP
              rw [if_neg hsk]
            rw [hcomp] at h1
            rw [← h1]
            exact Or.inr (Or.inr (Or.inr (Or.inr (Or.inl
              ⟨hsk0, ⟨fd, rfl⟩, rfl, rfl, rfl⟩))))
          · by_cases he : e ≠ EINPROGRESS
            · have hcomp : (connectIP c ip port (some fd) (some e)).1 = c := by
                unfold connectIP
                rw [if_neg hsk]
                dsimp only
                rw [if_pos he]
              rw [hcomp] at h1
              rw [← h1]
              exact Or.inr (Or.inl ⟨rfl, rfl, rfl, fun h => h⟩)
            · have hcomp : (connectIP c ip port (some fd) (some e)).1 =
                  { c with _conn_state := 2, _socket := (fd : Int) } := by
                unfold connectIP
                rw [if_neg hsk]
                dsimp only
                rw [if_neg he]
              rw [hcomp] at h1
              rw [← h1]
              exact Or.inr (Or.inr (Or.inr (Or.inr (Or.inl
                ⟨hsk0, ⟨fd, rfl⟩, rfl, rfl, rfl⟩))))
  | aDelayedConnect sr cr =>
      have hstep : step c (Act.aDelayedConnect sr cr) =
          some (_sockDelayedConnect c sr cr) := rfl
      rw [hstep] at hs
      simp only [Option.some.injEq] at hs
      have h1 := congrArg Prod.fst hs
      dsimp only at h1
      by_cases ha : c._connect_addr ≠ 0
      · have hcomp : (_sockDelayedConnect c sr cr).1 =
            (connectIP c c._connect_addr c._connect_port sr cr).1 := by
          unfold _sockDelayedConnect
          rw [if_pos ha]
        rw [hcomp] at h1
        by_cases hsk : c._socket ≠ -1
        · have hc2 : (connectIP c c._connect_addr c._connect_port sr cr).1
              = c := by
            unfold connectIP
            rw [if_pos hsk]
          rw [hc2] at h1
          rw [← h1]
          exact Or.inr (Or.inl ⟨rfl, rfl, rfl, fun h => h⟩)
        · have hsk0 : c._socket = -1 := not_not.mp hsk
          rcases sr with _ | fd
          · have hc2 : (connectIP c c._connect_addr c._connect_port none
                cr).1 = c := by
              unfold connectIP
              rw [if_neg hsk]
            rw [hc2] at h1
            rw [← h1]
            exact Or.inr (Or.inl ⟨rfl, rfl, rfl, fun h => h⟩)
          · rcases cr with _ | e
            · have hc2 : (connectIP c c._connect_addr c._connect_port
                  (some fd) none).1 =
                  { c with _conn_state := 2, _socket := (fd : Int) } := by
                unfold connectIP
                rw [if_neg hsk]
              rw [hc2] at h1
              rw [← h1]
              exact Or.inr (Or.inr (Or.inr (Or.inr (Or.inl
                ⟨hsk0, ⟨fd, rfl⟩, rfl, rfl, rfl⟩))))
            · by_cases he : e ≠ EINPROGRESS
              · have hc2 : (connectIP c c._connect_addr c._connect_port
                    (some fd) (some e)).1 = c := by
                  unfold connectIP
                  rw [if_neg hsk]
                  dsimp only
                  rw [if_pos he]
                rw [hc2] at h1
                rw [← h1]
                exact Or.inr (Or.inl ⟨rfl, rfl, rfl, fun h => h⟩)
              · have hc2 : (connectIP c c._connect_addr c._connect_port
                    (some fd) (some e)).1 =
                    { c with _conn_state := 2, _socket := (fd : Int) } := by
                  unfold connectIP
                  rw [if_neg hsk]
                  dsimp only
                  rw [if_neg he]
                rw [hc2] at h1
                rw [← h1]
                exact Or.inr (Or.inr (Or.inr (Or.inr (Or.inl
                  ⟨hsk0, ⟨fd, rfl⟩, rfl, rfl, rfl⟩))))
      · have hcomp : (_sockDelayedConnect c sr cr).1 = c := by
          unfold _sockDelayedConnect
          rw [if_neg ha]
        rw [hcomp] at h1
        rw [← h1]
        exact Or.inr (Or.inl ⟨rfl, rfl, rfl, fun h => h⟩)

/-- One step preserves descriptor/state coherence. -/
theorem step_coherent (c c' : AsyncClient) (a : Act) (evs : List CbEvent)
    (hc : coherent c) (hs : step c a = some (c', evs)) : coherent c' := by
  rcases step_shape c a c' evs hs with
    ⟨h1, h2, _, _⟩ | ⟨h1, h2, _, _⟩ | ⟨_, hcn, h1, h2⟩ | ⟨h23, h1, h2, _⟩ |
    ⟨hsk, ⟨fd, h1⟩, h2, _, _⟩ | ⟨h1, h2, _, _⟩
  · unfold coherent
    rw [h1, h2]
    simp
  · unfold coherent at hc ⊢
    rw [h1, h2]
    exact hc
  · unfold coherent at hc ⊢
    rw [h1, h2]
    exact hc
  · unfold coherent at hc ⊢
    rw [h1, h2]
    constructor
    · intro hx
      have h0 := hc.mp hx
      rcases h23 with h23 | h23 <;> omega
    · intro hx
      omega
  · unfold coherent
    rw [h1, h2]
    constructor
    · intro hx
      omega
    · intro hx
      omega
  · unfold coherent at hc ⊢
    rw [h1, h2]
    exact hc

/-- One step preserves the full state/queue invariant. -/
theorem step_stateQueue (c c' : AsyncClient) (a : Act) (evs : List CbEvent)
    (hinv : stateQueueInv c) (hs : step c a = some (c', evs)) :
    stateQueueInv c' := by
  obtain ⟨hc, hq4⟩ := hinv
  refine ⟨step_coherent c c' a evs hc hs, ?_⟩
  rcases step_shape c a c' evs hs with
    ⟨h1, h2, h3, _⟩ | ⟨h1, h2, _, h4⟩ | ⟨_, hcn, h1, h2⟩ | ⟨h23, h1, h2, h3⟩ |
    ⟨hsk, _, h2, h3, _⟩ | ⟨h1, h2, h3, _⟩
  · exact fun _ => h3
  · intro hx
    rw [h2] at hx
    exact h4 (hq4 hx)
  · intro hx
    rw [h2] at hx
    exact absurd (connected_state c hcn) hx
  · intro hx
    rw [h2] at hx
    exact absurd rfl hx
  · intro _
    rw [h3]
    have h0 := hc.mp hsk
    exact hq4 (by omega)
  · intro hx
    rw [h2] at hx
    rw [h3]
    exact hq4 hx

/-- A non-add step preserves quietness. -/
theorem step_quiet (c c' : AsyncClient) (a : Act) (evs : List CbEvent)
    (hinv : stateQueueInv c) (hq : quietInv c) (hna : a.isAddAct = false)
    (hs : step c a = some (c', evs)) : quietInv c' := by
  obtain ⟨hc, hq4⟩ := hinv
  rcases step_shape c a c' evs hs with
    ⟨_, _, h3, _⟩ | ⟨_, _, h3, h4⟩ | ⟨hadd, _, _, _⟩ | ⟨h23, _, _, h3⟩ |
    ⟨_, _, _, h3, h4⟩ | ⟨_, _, _, h4⟩
  · exact Or.inr h3
  · rcases hq with hl | hqe
    · exact Or.inl (by rw [h3]; exact hl)
    · exact Or.inr (h4 hqe)
  · rw [hadd] at hna
    cases hna
  · refine Or.inr ?_
    rw [h3]
    exact hq4 (by rcases h23 with h | h <;> omega)
  · rcases hq with hl | hqe
    · exact Or.inl (by rw [h4]; exact hl)
    · exact Or.inr (by rw [h3]; exact hqe)
  · exact Or.inl h4

/-- Both invariants are preserved along any run of non-add interactions. -/
theorem run_quiet_preserved (mid : List Act) :
    ∀ c c', stateQueueInv c → quietInv c →
    (∀ a ∈ mid, a.isAddAct = false) → run c mid = some c' →
    stateQueueInv c' ∧ quietInv c' := by
  induction mid with
  | nil =>
      intro c c' h1 h2 _ hr
      unfold run at hr
      simp only [Option.some.injEq] at hr
      rw [← hr]
      exact ⟨h1, h2⟩
  | cons a rest ih =>
      intro c c' h1 h2 hna hr
      unfold run at hr
      rcases hst : step c a with _ | p
      · rw [hst] at hr
        cases hr
      · rw [hst] at hr
        have hna1 : a.isAddAct = false := hna a (List.mem_cons_self a rest)
        have hna2 : ∀ b ∈ rest, b.isAddAct = false :=
          fun b hb => hna b (List.mem_cons_of_mem a hb)
        exact ih p.1 c'
          (step_stateQueue c p.1 a p.2 h1 (by rw [hst]))
          (step_quiet c p.1 a p.2 h1 h2 hna1 (by rw [hst]))
          hna2 hr

/-- Any on_timeout event comes from the fire branch of _sockPoll, which
requires the latch clear and sets it. -/
theorem sockPoll_timeout_mem (c c' : AsyncClient) (evs : List CbEvent)
    (now d : Nat) (hp : _sockPoll c now = some (c', evs))
    (hm : CbEvent.onTimeout d ∈ evs) :
    c' = { c with _ack_timeout_signaled := true } ∧
    c._ack_timeout_signaled = false := by
  by_cases hsk : c._socket = -1
  · have hcomp : _sockPoll c now = some (c, []) := by
      unfold _sockPoll
      rw [if_pos hsk]
    rw [hcomp] at hp
    simp only [Option.some.injEq, Prod.mk.injEq] at hp
    obtain ⟨_, h2⟩ := hp
    rw [← h2] at hm
    cases hm
  · rcases hqq : c._writeQueue with _ | ⟨qwb, tl⟩
    · have hcomp : _sockPoll c now = none := by
        unfold _sockPoll
        rw [if_neg hsk, hqq]
      rw [hcomp] at hp
      cases hp
    · rw [sockPoll_cons c now qwb tl hsk hqq] at hp
      by_cases hfire : c._ack_timeout_signaled = false ∧
          c._ack_timeout ≠ 0 ∧ c._ack_timeout ≤ sub32 now qwb.queued_at
      · rw [if_pos hfire] at hp
        simp only [Option.some.injEq, Prod.mk.injEq] at hp
        obtain ⟨h1, _⟩ := hp
        refine ⟨?_, hfire.1⟩
        rw [← h1, hqq]
      · rw [if_neg hfire] at hp
        by_cases hrx : c._rx_since_timeout ≠ 0 ∧
            c._rx_since_timeout * 1000 % 4294967296 ≤
              sub32 now c._rx_last_packet
        · rw [if_pos hrx] at hp
          simp only [Option.some.injEq] at hp
          have h2 := congrArg Prod.snd hp
          dsimp only at h2
          rw [← h2] at hm
          exact absurd hm (onTimeout_not_mem_close c d)
        · rw [if_neg hrx] at hp
          simp only [Option.some.injEq, Prod.mk.injEq] at hp
          obtain ⟨_, h2⟩ := hp
          rw [← h2] at hm
          by_cases hpc : c.has_poll_cb = true
          · rw [if_pos hpc] at hm
            simp at hm
          · rw [if_neg hpc] at hm
            cases hm

/-- A quiet client's idle poll never emits on_timeout. -/
theorem sockPoll_no_timeout_of_quiet (c c' : AsyncClient)
    (evs : List CbEvent) (now d : Nat) (hq : quietInv c)
    (hp : _sockPoll c now = some (c', evs)) :
    CbEvent.onTimeout d ∉ evs := by
  intro hm
  obtain ⟨_, hl⟩ := sockPoll_timeout_mem c c' evs now d hp hm
  rcases hq with hlat | hqe
  · rw [hlat] at hl
    cases hl
  · by_cases hsk : c._socket = -1
    · have hcomp : _sockPoll c now = some (c, []) := by
        unfold _sockPoll
        rw [if_pos hsk]
      rw [hcomp] at hp
      simp only [Option.some.injEq, Prod.mk.injEq] at hp
      obtain ⟨_, h2⟩ := hp
      rw [← h2] at hm
      cases hm
    · have hcomp : _sockPoll c now = none := by
        unfold _sockPoll
        rw [if_neg hsk, hqe]
      rw [hcomp] at hp
      cases hp

/-- Claim C4: the ack timeout fires at most once until the head buffer
changes through an enqueue: after an idle poll fires on_timeout (setting
the ack_timeout_signaled latch), as long as no add() runs — whatever else
happens: flushes, retirements, reads, sends, closes, connects, further
polls — no later idle poll emits on_timeout again; a new enqueue resets
the latch and re-arms the timeout. -/
theorem ack_timeout_once_until_enqueue (s0 s1 s2 s3 : AsyncClient)
    (evs1 evs2 : List CbEvent) (now1 now2 d : Nat) (mid : List Act)
    (hinv : stateQueueInv s0)
    (hp1 : _sockPoll s0 now1 = some (s1, evs1))
    (hfired : CbEvent.onTimeout d ∈ evs1)
    (hmid : ∀ a ∈ mid, a.isAddAct = false)
    (hrun : run s1 mid = some s2)
    (hp2 : _sockPoll s2 now2 = some (s3, evs2)) :
    ∀ e, CbEvent.onTimeout e ∉ evs2 := by
  obtain ⟨hs1, _⟩ := sockPoll_timeout_mem s0 s1 evs1 now1 d hp1 hfired
  have hinv1 : stateQueueInv s1 := by
    rw [hs1]
    exact hinv
  have hq1 : quietInv s1 := by
    rw [hs1]
    exact Or.inl rfl
  obtain ⟨_, hq2⟩ := run_quiet_preserved mid s1 s2 hinv1 hq1 hmid hrun
  intro e
  exact sockPoll_no_timeout_of_quiet s2 s3 evs2 now2 e hq2 hp2

/-- Witness for ack_timeout_once_until_enqueue: stallC fires on_timeout at
t=6000; with no add in between, a second idle poll at t=9000 emits no
on_timeout. -/
theorem ack_timeout_once_until_enqueue_witness :
    stateQueueInv stallC ∧
    _sockPoll stallC 6000 = some (stallCFired, [CbEvent.onTimeout 6000]) ∧
    _sockPoll stallCFired 9000 = some (stallCFired, []) ∧
    (∀ e, CbEvent.onTimeout e ∉ ([] : List CbEvent)) := by
  have hinv : stateQueueInv stallC := by
    constructor
    · unfold coherent
      decide
    · intro h
      exact absurd rfl h
  have hp1 : _sockPoll stallC 6000 =
      some (stallCFired, [CbEvent.onTimeout 6000]) := by decide
  have hp2 : _sockPoll stallCFired 9000 = some (stallCFired, []) := by decide
  refine ⟨hinv, hp1, hp2, ?_⟩
  intro e
  exact ack_timeout_once_until_enqueue stallC stallCFired stallCFired
    stallCFired [CbEvent.onTimeout 6000] [] 6000 9000 6000 [] hinv hp1
    (by simp) (fun a ha => absurd ha (List.not_mem_nil a)) rfl hp2 e

/-- Claim C5: descriptor/state coherence — the descriptor equals -1 iff
conn_state equals CLOSED(0) — holds for every freshly constructed client
(both the closed and the adopted-descriptor forms) and is preserved by
every modelled operation: add, send, close, connect, the delayed-connect
hook, and the writable/readable/poll hooks including their close and
error teardowns. -/
theorem descriptor_state_coherence :
    (∀ sockfd : Int, coherent (mkAsyncClient sockfd)) ∧
    (∀ c c' a evs, coherent c → step c a = some (c', evs) →
       coherent c') := by
  constructor
  · intro sockfd
    unfold coherent mkAsyncClient
    dsimp only
    by_cases h : sockfd ≠ -1
    · rw [if_pos h, if_pos h]
      constructor
      · intro hx
        exact absurd hx h
      · intro hx
        omega
    · rw [if_neg h, if_neg h]
      simp
  · intro c c' a evs hc hs
    exact step_coherent c c' a evs hc hs

/-- Witness for descriptor_state_coherence: a fresh ESTABLISHED client is
coherent and stays coherent across close(). -/
theorem descriptor_state_coherence_witness :
    coherent (mkAsyncClient 5) ∧ coherent (close (mkAsyncClient 5)).1 := by
  refine ⟨descriptor_state_coherence.1 5, ?_⟩
  exact descriptor_state_coherence.2 (mkAsyncClient 5)
    (close (mkAsyncClient 5)).1 Act.aClose (close (mkAsyncClient 5)).2
    (descriptor_state_coherence.1 5) rfl

end AsyncTCPSock
